import Mathlib

/-
Verification of the weru cache/channel engine-backend contracts.

The development shallowly embeds the cache and channel backends:
* the local cache backend (crates/cache/src/engine/backends/local.rs):
  a map from serialised keys to values with absolute expiry instants,
  with lazy eviction of expired entries;
* the error taxonomy and its From-impl mappings
  (crates/cache/src/error.rs, crates/channel/src/error.rs);
* the local channel backend (crates/channel/src/engine/backends/local.rs)
  over a bounded broadcast bus, and the Redis channel backend's listen
  stream (crates/channel/src/engine/backends/redis.rs);
* the remote (Redis) cache backend's command usage
  (crates/cache/src/engine/backends/redis.rs), with the remote store's
  command semantics modelled from the specification's wire-protocol
  description, since the store itself is an external collaborator.

Instants and durations are modelled as natural numbers; serialised bytes
as lists of naturals.  The codec (cbor4ii, an external collaborator) is
an abstract pair of fallible encode/decode functions.
-/

/-- Decidable equality for Except, used to evaluate operation results on
concrete inputs. -/
instance {e a : Type} [DecidableEq e] [DecidableEq a] :
    DecidableEq (Except e a) := fun x y =>
  match x, y with
  | Except.ok u, Except.ok v =>
    if h : u = v then isTrue (by rw [h]) else
      isFalse (by intro hc; cases hc; exact h rfl)
  | Except.error u, Except.error v =>
    if h : u = v then isTrue (by rw [h]) else
      isFalse (by intro hc; cases hc; exact h rfl)
  | Except.ok _, Except.error _ => isFalse (by intro hc; cases hc)
  | Except.error _, Except.ok _ => isFalse (by intro hc; cases hc)

namespace Weru

/-- Serialised bytes. -/
abbrev Bytes := List Nat

/-- An abstract serialisation codec for one type: the external cbor4ii
collaborator, treated as an opaque pair of fallible byte functions. -/
structure Codec (A : Type) where
  enc : A → Except String Bytes
  dec : Bytes → Except String A

namespace Cache

/-- The cache error type, from crates/cache/src/error.rs. -/
inductive Error where
  | Connection : String → Error
  | ValueAccess : String → Error
  | Encoding : String → Error
  deriving DecidableEq, Repr

/-- From PoisonError (lock acquisition failure), cache error.rs lines 21-25. -/
def Error.fromPoison (s : String) : Error := Error.ValueAccess s

/-- From cbor4ii DecodeError, cache error.rs lines 32-39. -/
def Error.fromDecode (s : String) : Error := Error.Encoding s

/-- From cbor4ii EncodeError, cache error.rs lines 41-48. -/
def Error.fromEncode (s : String) : Error := Error.Encoding s

/-- From mobc PoolError (connection-pool acquisition failure), cache
error.rs lines 56-63. -/
def Error.fromPool (s : String) : Error := Error.Connection s

/-- From RedisError (an error reported by the remote store while running a
command), cache error.rs lines 65-69. -/
def Error.fromRedis (s : String) : Error := Error.ValueAccess s

/-- Whether an error is the connection kind. -/
def Error.isConn : Error → Bool
  | Error.Connection _ => true
  | _ => false

/-- Whether an error is the value-access kind. -/
def Error.isVA : Error → Bool
  | Error.ValueAccess _ => true
  | _ => false

/-- Whether an error is the encoding kind. -/
def Error.isEnc : Error → Bool
  | Error.Encoding _ => true
  | _ => false

/-- A stored value with its absolute expiry instant: struct Data of
local.rs lines 236-243. -/
structure Data where
  value : Bytes
  expiry : Nat
  deriving DecidableEq, Repr

/-- Data::live (local.rs lines 260-262): the entry is live while the
current instant is strictly before the expiry instant. -/
def Data.live (d : Data) (now : Nat) : Bool := decide (now < d.expiry)

/-- The untyped buffer backing one named local cache (struct Buffer of
local.rs): a map from serialised keys to Data, modelled as an association
list. -/
abbrev Buffer := List (Bytes × Data)

/-- Map lookup on the buffer (HashMap::get). -/
def Buffer.lookup : Buffer → Bytes → Option Data
  | [], _ => none
  | (k, d) :: rest, key => if k = key then some d else Buffer.lookup rest key

/-- Map removal on the buffer (HashMap::remove, dropping the returned
value). -/
def Buffer.erase : Buffer → Bytes → Buffer
  | [], _ => []
  | (k, d) :: rest, key =>
    if k = key then Buffer.erase rest key else (k, d) :: Buffer.erase rest key

/-- Map insertion on the buffer (HashMap::insert: replaces any existing
entry for the key). -/
def Buffer.insert (b : Buffer) (key : Bytes) (d : Data) : Buffer :=
  (key, d) :: Buffer.erase b key

/-- Buffer::get (local.rs lines 188-202): a live entry is returned; an
expired entry is removed from storage and nothing is returned. -/
def Buffer.get (b : Buffer) (now : Nat) (key : Bytes) :
    Option Bytes × Buffer :=
  match Buffer.lookup b key with
  | some w => if w.live now then (some w.value, b) else (none, Buffer.erase b key)
  | none => (none, b)

/-- Buffer::remove (local.rs lines 210-223): the entry is removed from the
map unconditionally; it is returned only if it was still live. -/
def Buffer.remove (b : Buffer) (now : Nat) (key : Bytes) :
    Option Data × Buffer :=
  match Buffer.lookup b key with
  | some w =>
    if w.live now then (some w, Buffer.erase b key)
    else (none, Buffer.erase b key)
  | none => (none, b)

/-- Buffer::put (local.rs lines 231-233). -/
def Buffer.put (b : Buffer) (key value : Bytes) (expiry : Nat) : Buffer :=
  Buffer.insert b key (Data.mk value expiry)

variable {K V : Type}

/-- Cache::get on the local backend (local.rs lines 117-124): serialise
the key, read the buffer (which may purge an expired entry), then decode
the bytes found, if any. -/
def localGet (kc : Codec K) (vc : Codec V) (b : Buffer) (now : Nat)
    (key : K) : Except Error (Option V) × Buffer :=
  match kc.enc key with
  | Except.error e => (Except.error (Error.fromEncode e), b)
  | Except.ok kb =>
    match Buffer.get b now kb with
    | (none, b2) => (Except.ok none, b2)
    | (some bytes, b2) =>
      match vc.dec bytes with
      | Except.error e => (Except.error (Error.fromDecode e), b2)
      | Except.ok v => (Except.ok (some v), b2)

/-- Cache::pop on the local backend (local.rs lines 126-133): serialise
the key, remove the entry from the buffer, then decode the removed value,
if any. -/
def localPop (kc : Codec K) (vc : Codec V) (b : Buffer) (now : Nat)
    (key : K) : Except Error (Option V) × Buffer :=
  match kc.enc key with
  | Except.error e => (Except.error (Error.fromEncode e), b)
  | Except.ok kb =>
    match Buffer.remove b now kb with
    | (none, b2) => (Except.ok none, b2)
    | (some d, b2) =>
      match vc.dec d.value with
      | Except.error e => (Except.error (Error.fromDecode e), b2)
      | Except.ok v => (Except.ok (some v), b2)

/-- Cache::put on the local backend (local.rs lines 135-142): serialise
key and value, then store with expiry now + ttl. -/
def localPut (kc : Codec K) (vc : Codec V) (b : Buffer) (now : Nat)
    (key : K) (value : V) (ttl : Nat) : Except Error Unit × Buffer :=
  match kc.enc key with
  | Except.error e => (Except.error (Error.fromEncode e), b)
  | Except.ok kb =>
    match vc.enc value with
    | Except.error e => (Except.error (Error.fromEncode e), b)
    | Except.ok vb => (Except.ok (), Buffer.put b kb vb (now + ttl))

/-- Cache::replace on the local backend (local.rs lines 144-164):
serialise key and value; remove any previous entry; if one was live,
write the new value (with expiry now + ttl when a ttl is given, else the
previous entry's absolute expiry) and then decode the previous value. -/
def localReplace (kc : Codec K) (vc : Codec V) (b : Buffer) (now : Nat)
    (key : K) (value : V) (ttl : Option Nat) :
    Except Error (Option V) × Buffer :=
  match kc.enc key with
  | Except.error e => (Except.error (Error.fromEncode e), b)
  | Except.ok kb =>
    match vc.enc value with
    | Except.error e => (Except.error (Error.fromEncode e), b)
    | Except.ok vb =>
      match Buffer.remove b now kb with
      | (some d, b2) =>
        let b3 := Buffer.put b2 kb vb
          (match ttl with | some t => now + t | none => d.expiry)
        match vc.dec d.value with
        | Except.error e => (Except.error (Error.fromDecode e), b3)
        | Except.ok v => (Except.ok (some v), b3)
      | (none, b2) => (Except.ok none, b2)

/-- Modelled from the spec: the remote store's GET command over a store of
entries with absolute expiry instants; an entry whose expiry has passed is
semantically absent (data-model section), so a live value or nothing is
returned and the store is not changed. -/
def redisGet (st : Buffer) (now : Nat) (key : Bytes) : Option Bytes :=
  match Buffer.lookup st key with
  | some d => if d.live now then some d.value else none
  | none => none

/-- Modelled from the spec: the remote store's GET-AND-DELETE command: the
live value for the key is removed and returned in one step; an absent or
expired key yields nothing. -/
def redisGetDel (st : Buffer) (now : Nat) (key : Bytes) :
    Option Bytes × Buffer :=
  match Buffer.lookup st key with
  | some d =>
    if d.live now then (some d.value, Buffer.erase st key) else (none, st)
  | none => (none, st)

/-- Modelled from the spec: the remote store's SET key value
expire-in-milliseconds command: unconditional insert with expiry now plus
the given duration. -/
def redisSetPX (st : Buffer) (now : Nat) (key value : Bytes) (ms : Nat) :
    Buffer :=
  Buffer.insert st key (Data.mk value (now + ms))

/-- Modelled from the spec: the remote store's SET with conditional-exists
and get-previous options, as issued by Cache::replace on the Redis backend
(redis.rs lines 183-222): the write happens only if a live entry exists;
the previous value is returned; with a duration the new expiry is now plus
it (the PX branch of the code), without one the stored expiry is kept (the
KEEPTTL branch of the code). -/
def redisSetXXGet (st : Buffer) (now : Nat) (key value : Bytes)
    (px : Option Nat) : Option Bytes × Buffer :=
  match Buffer.lookup st key with
  | some d =>
    if d.live now then
      (some d.value,
       Buffer.insert st key
         (Data.mk value (match px with | some ms => now + ms | none => d.expiry)))
    else (none, st)
  | none => (none, st)

/-- Key serialisation on the Redis backend (redis.rs lines 106-113): the
configured byte prefix concatenated with the encoded key. -/
def redisKeySerialize (pfx : Bytes) (kc : Codec K) (key : K) :
    Except String Bytes :=
  match kc.enc key with
  | Except.ok kb => Except.ok (pfx ++ kb)
  | Except.error e => Except.error e

/-- Cache::get on the Redis backend (redis.rs lines 141-151), over the
spec-modelled store: serialise the key, issue GET, decode the value if one
came back. -/
def redisCacheGet (pfx : Bytes) (kc : Codec K) (vc : Codec V)
    (st : Buffer) (now : Nat) (key : K) : Except Error (Option V) × Buffer :=
  match redisKeySerialize pfx kc key with
  | Except.error e => (Except.error (Error.fromEncode e), st)
  | Except.ok kb =>
    match redisGet st now kb with
    | some bytes =>
      match vc.dec bytes with
      | Except.ok v => (Except.ok (some v), st)
      | Except.error e => (Except.error (Error.fromDecode e), st)
    | none => (Except.ok none, st)

/-- Cache::pop on the Redis backend (redis.rs lines 153-163), over the
spec-modelled store: serialise the key, issue GET-AND-DELETE, decode the
value if one came back. -/
def redisCachePop (pfx : Bytes) (kc : Codec K) (vc : Codec V)
    (st : Buffer) (now : Nat) (key : K) : Except Error (Option V) × Buffer :=
  match redisKeySerialize pfx kc key with
  | Except.error e => (Except.error (Error.fromEncode e), st)
  | Except.ok kb =>
    match redisGetDel st now kb with
    | (some bytes, st2) =>
      match vc.dec bytes with
      | Except.ok v => (Except.ok (some v), st2)
      | Except.error e => (Except.error (Error.fromDecode e), st2)
    | (none, st2) => (Except.ok none, st2)

/-- Cache::put on the Redis backend (redis.rs lines 165-181), over the
spec-modelled store: serialise key and value, issue SET with PX. -/
def redisCachePut (pfx : Bytes) (kc : Codec K) (vc : Codec V)
    (st : Buffer) (now : Nat) (key : K) (value : V) (ttl : Nat) :
    Except Error Unit × Buffer :=
  match redisKeySerialize pfx kc key with
  | Except.error e => (Except.error (Error.fromEncode e), st)
  | Except.ok kb =>
    match vc.enc value with
    | Except.error e => (Except.error (Error.fromEncode e), st)
    | Except.ok vb => (Except.ok (), redisSetPX st now kb vb ttl)

/-- Cache::replace on the Redis backend (redis.rs lines 183-222), over the
spec-modelled store: serialise key and value, issue SET XX GET with PX
when a ttl is given and KEEPTTL otherwise, and decode the previous value
if one came back. -/
def redisCacheReplace (pfx : Bytes) (kc : Codec K) (vc : Codec V)
    (st : Buffer) (now : Nat) (key : K) (value : V) (ttl : Option Nat) :
    Except Error (Option V) × Buffer :=
  match redisKeySerialize pfx kc key with
  | Except.error e => (Except.error (Error.fromEncode e), st)
  | Except.ok kb =>
    match vc.enc value with
    | Except.error e => (Except.error (Error.fromEncode e), st)
    | Except.ok vb =>
      match redisSetXXGet st now kb vb ttl with
      | (some bytes, st2) =>
        match vc.dec bytes with
        | Except.ok v => (Except.ok (some v), st2)
        | Except.error e => (Except.error (Error.fromDecode e), st2)
      | (none, st2) => (Except.ok none, st2)

end Cache

namespace Channel

/-- The channel error type, from crates/channel/src/error.rs. -/
inductive Error where
  | Connection : String → Error
  | ValueAccess : String → Error
  | Encoding : String → Error
  deriving DecidableEq, Repr

/-- From PoisonError (lock acquisition failure), channel error.rs lines
21-25. -/
def Error.fromPoison (s : String) : Error := Error.ValueAccess s

/-- From mpsc RecvError, channel error.rs lines 27-31. -/
def Error.fromRecv (s : String) : Error := Error.Connection s

/-- From cbor4ii DecodeError, channel error.rs lines 40-47. -/
def Error.fromDecode (s : String) : Error := Error.Encoding s

/-- From cbor4ii EncodeError, channel error.rs lines 49-56. -/
def Error.fromEncode (s : String) : Error := Error.Encoding s

/-- From mobc PoolError (connection-pool acquisition failure), channel
error.rs lines 58-65. -/
def Error.fromPool (s : String) : Error := Error.Connection s

/-- From RedisError (an error reported by the remote store while running a
command), channel error.rs lines 67-71. -/
def Error.fromRedis (s : String) : Error := Error.ValueAccess s

/-- Whether an error is the connection kind. -/
def Error.isConn : Error → Bool
  | Error.Connection _ => true
  | _ => false

variable {T : Type}

/-- Modelled from the spec: the state of the local bounded broadcast bus
for one topic (the external bus crate behind local.rs): a fixed capacity
and one pending queue per active subscription. -/
structure BusState (T : Type) where
  capacity : Nat
  queues : List (List T)
  deriving DecidableEq, Repr

/-- Modelled from the spec: Bus::try_broadcast of the external bus crate:
an all-or-nothing, non-blocking publish that appends the event to every
subscription's queue, and fails without delivering to anyone when some
subscription's queue has no room. -/
def tryBroadcast (st : BusState T) (e : T) : Option (BusState T) :=
  if st.queues.any (fun q => st.capacity ≤ q.length) then none
  else some (BusState.mk st.capacity (st.queues.map (fun q => q ++ [e])))

/-- Channel::broadcast on the local backend (local.rs lines 82-87): a
failed try_broadcast is mapped to the connection-kind error with message
"queue is full"; the bus state is unchanged on failure. -/
def broadcast (st : BusState T) (e : T) : Except Error Unit × BusState T :=
  match tryBroadcast st e with
  | some st2 => (Except.ok (), st2)
  | none => (Except.error (Error.Connection "queue is full"), st)

/-- Broadcasting a list of events in order, stopping at the first failure
(as the test helper write of backends/tests.rs does). -/
def broadcastMany (st : BusState T) (es : List T) :
    Except Error Unit × BusState T :=
  match es with
  | [] => (Except.ok (), st)
  | e :: rest =>
    match broadcast st e with
    | (Except.ok _, st2) => broadcastMany st2 rest
    | (Except.error err, st2) => (Except.error err, st2)

/-- Modelled from the spec: Bus::add_rx of the external bus crate, as
called by Channel::listen on the local backend (local.rs line 94): a new
subscription with an empty pending queue is added; no buffered history is
carried over. -/
def listen (st : BusState T) : BusState T :=
  BusState.mk st.capacity (st.queues ++ [[]])

/-- A receive-side error of the external bus crate reader. -/
inductive RecvFailure where
  | empty
  | disconnected
  deriving DecidableEq, Repr

/-- Modelled from the spec: BusReader::try_recv of the external bus crate:
the oldest pending event, or an error when nothing is pending (empty while
the transport is open, disconnected after it closed). -/
def tryRecv (pending : List T) (closed : Bool) :
    Except RecvFailure (T × List T) :=
  match pending with
  | [] =>
    Except.error (if closed then RecvFailure.disconnected else RecvFailure.empty)
  | e :: rest => Except.ok (e, rest)

/-- One poll of the stream returned by Channel::listen on the local
backend (local.rs lines 95-98): a received event is yielded as an ok item;
any try_recv failure ends the stream (the poll yields nothing). -/
def localListenPoll (pending : List T) (closed : Bool) :
    Option (Except Error T × List T) :=
  match tryRecv pending closed with
  | Except.ok (e, rest) => some (Except.ok e, rest)
  | Except.error _ => none

/-- One item of the stream returned by Channel::listen on the Redis
backend (redis.rs lines 113-115): each received payload is decoded; a
decode failure becomes an error item. -/
def redisListenItem (vc : Codec T) (payload : Weru.Bytes) : Except Error T :=
  match vc.dec payload with
  | Except.ok t => Except.ok t
  | Except.error e => Except.error (Error.fromDecode e)

/-- The stream returned by Channel::listen on the Redis backend, applied
to the whole sequence of payloads delivered before the transport closed:
one item per payload. -/
def redisListen (vc : Codec T) (msgs : List Weru.Bytes) :
    List (Except Error T) :=
  msgs.map (redisListenItem vc)

end Channel

/-- A concrete test codec for naturals: a number encodes to a singleton
byte list and only singleton lists decode. -/
def natCodec : Codec Nat where
  enc n := Except.ok [n]
  dec bs :=
    match bs with
    | [n] => Except.ok n
    | _ => Except.error "bad"

/-- A concrete codec whose encoder always fails. -/
def failCodec : Codec Nat where
  enc _ := Except.error "enc"
  dec _ := Except.error "dec"

theorem Cache.Buffer.lookup_erase (b : Cache.Buffer) (k : Bytes) :
    Cache.Buffer.lookup (Cache.Buffer.erase b k) k = none := by
  induction b with
  | nil => rfl
  | cons hd tl ih =>
    obtain ⟨k2, d⟩ := hd
    by_cases h : k2 = k
    · simpa [Cache.Buffer.erase, h] using ih
    · simpa [Cache.Buffer.erase, Cache.Buffer.lookup, h] using ih

theorem Cache.Buffer.lookup_insert (b : Cache.Buffer) (k : Bytes)
    (d : Cache.Data) :
    Cache.Buffer.lookup (Cache.Buffer.insert b k d) k = some d := by
  simp [Cache.Buffer.insert, Cache.Buffer.lookup]

/-- C10: in the local cache backend an entry is live only while the
current instant is strictly before its expiry instant; an entry whose
expiry equals the current instant is already expired, so a put with a zero
ttl immediately followed by a get yields nothing (and the dead entry is
purged). -/
theorem c10_zero_ttl_entry_immediately_expired
    {K V : Type} (kc : Codec K) (vc : Codec V) (b : Cache.Buffer)
    (now t : Nat) (key : K) (v : V) (kb vb : Bytes)
    (hk : kc.enc key = Except.ok kb)
    (hv : vc.enc v = Except.ok vb)
    (ht : now ≤ t) :
    (∀ d : Cache.Data, ∀ u : Nat, (d.live u = true ↔ u < d.expiry)) ∧
    Cache.localPut kc vc b now key v 0 =
      (Except.ok (), Cache.Buffer.put b kb vb (now + 0)) ∧
    Cache.localGet kc vc (Cache.Buffer.put b kb vb (now + 0)) t key =
      (Except.ok none,
       Cache.Buffer.erase (Cache.Buffer.put b kb vb (now + 0)) kb) := by
  refine ⟨fun d u => by simp [Cache.Data.live], ?_, ?_⟩
  · simp [Cache.localPut, hk, hv]
  · have hlook :
        Cache.Buffer.lookup (Cache.Buffer.put b kb vb now) kb =
          some (Cache.Data.mk vb now) :=
      Cache.Buffer.lookup_insert b kb (Cache.Data.mk vb now)
    have hdead : Cache.Data.live (Cache.Data.mk vb now) t = false := by
      simp [Cache.Data.live]
      omega
    simp [Cache.localGet, hk, Cache.Buffer.get, hlook, hdead]

/-- Closed instance of c10_zero_ttl_entry_immediately_expired at a
concrete buffer, instant and key. -/
theorem c10_zero_ttl_entry_immediately_expired_witness :
    (∀ d : Cache.Data, ∀ u : Nat, (d.live u = true ↔ u < d.expiry)) ∧
    Cache.localPut natCodec natCodec [] 4 1 7 0 =
      (Except.ok (), Cache.Buffer.put [] [1] [7] (4 + 0)) ∧
    Cache.localGet natCodec natCodec (Cache.Buffer.put [] [1] [7] (4 + 0)) 4 1 =
      (Except.ok none,
       Cache.Buffer.erase (Cache.Buffer.put [] [1] [7] (4 + 0)) [1]) :=
  c10_zero_ttl_entry_immediately_expired natCodec natCodec [] 4 4 1 7 [1] [7]
    rfl rfl (Nat.le_refl 4)

/-- C1: once an entry's expiry has passed, get, pop and replace all yield
nothing in place of its value, the local backend removes the expired entry
from storage the first time such an operation observes it, and the
spec-modelled remote commands likewise treat the expired entry as
absent. -/
theorem c1_expired_entry_never_returned
    {K V : Type} (kc : Codec K) (vc : Codec V) (b : Cache.Buffer)
    (now : Nat) (key : K) (v : V) (kb vb : Bytes) (d : Cache.Data)
    (ttl : Option Nat)
    (hk : kc.enc key = Except.ok kb)
    (hv : vc.enc v = Except.ok vb)
    (hd : Cache.Buffer.lookup b kb = some d)
    (hexp : d.expiry ≤ now) :
    Cache.localGet kc vc b now key =
      (Except.ok none, Cache.Buffer.erase b kb) ∧
    Cache.localPop kc vc b now key =
      (Except.ok none, Cache.Buffer.erase b kb) ∧
    Cache.localReplace kc vc b now key v ttl =
      (Except.ok none, Cache.Buffer.erase b kb) ∧
    Cache.Buffer.lookup (Cache.Buffer.erase b kb) kb = none ∧
    Cache.redisGet b now kb = none ∧
    Cache.redisGetDel b now kb = (none, b) ∧
    Cache.redisSetXXGet b now kb vb ttl = (none, b) := by
  have hdead : d.live now = false := by
    simp [Cache.Data.live]
    omega
  refine ⟨?_, ?_, ?_, Cache.Buffer.lookup_erase b kb, ?_, ?_, ?_⟩
  · simp [Cache.localGet, hk, Cache.Buffer.get, hd, hdead]
  · simp [Cache.localPop, hk, Cache.Buffer.remove, hd, hdead]
  · simp [Cache.localReplace, hk, hv, Cache.Buffer.remove, hd, hdead]
  · simp [Cache.redisGet, hd, hdead]
  · simp [Cache.redisGetDel, hd, hdead]
  · simp [Cache.redisSetXXGet, hd, hdead]

/-- Closed instance of c1_expired_entry_never_returned at a concrete
buffer holding one entry whose expiry equals the current instant. -/
theorem c1_expired_entry_never_returned_witness :
    Cache.localGet natCodec natCodec [([1], Cache.Data.mk [2] 5)] 5 1 =
      (Except.ok none, Cache.Buffer.erase [([1], Cache.Data.mk [2] 5)] [1]) ∧
    Cache.localPop natCodec natCodec [([1], Cache.Data.mk [2] 5)] 5 1 =
      (Except.ok none, Cache.Buffer.erase [([1], Cache.Data.mk [2] 5)] [1]) ∧
    Cache.localReplace natCodec natCodec [([1], Cache.Data.mk [2] 5)] 5 1 7 none =
      (Except.ok none, Cache.Buffer.erase [([1], Cache.Data.mk [2] 5)] [1]) ∧
    Cache.Buffer.lookup
      (Cache.Buffer.erase [([1], Cache.Data.mk [2] 5)] [1]) [1] = none ∧
    Cache.redisGet [([1], Cache.Data.mk [2] 5)] 5 [1] = none ∧
    Cache.redisGetDel [([1], Cache.Data.mk [2] 5)] 5 [1] =
      (none, [([1], Cache.Data.mk [2] 5)]) ∧
    Cache.redisSetXXGet [([1], Cache.Data.mk [2] 5)] 5 [1] [7] none =
      (none, [([1], Cache.Data.mk [2] 5)]) :=
  c1_expired_entry_never_returned natCodec natCodec
    [([1], Cache.Data.mk [2] 5)] 5 1 7 [1] [7] (Cache.Data.mk [2] 5) none
    rfl rfl (by decide) (by decide)

/-- C4: replace on a key holding a live entry with expiry E writes the new
value; without a ttl the new entry keeps the previous entry's absolute
expiry E, with a ttl the new expiry is now + ttl (on the local backend and
on the spec-modelled remote SET XX GET command). -/
theorem c4_replace_preserves_absolute_expiry
    {K V : Type} (kc : Codec K) (vc : Codec V) (b : Cache.Buffer)
    (now : Nat) (key : K) (v2 : V) (kb vb2 : Bytes) (d : Cache.Data)
    (t2 : Nat)
    (hk : kc.enc key = Except.ok kb)
    (hv : vc.enc v2 = Except.ok vb2)
    (hd : Cache.Buffer.lookup b kb = some d)
    (hlive : now < d.expiry) :
    (Cache.localReplace kc vc b now key v2 none).2 =
      Cache.Buffer.put (Cache.Buffer.erase b kb) kb vb2 d.expiry ∧
    Cache.Buffer.lookup (Cache.localReplace kc vc b now key v2 none).2 kb =
      some (Cache.Data.mk vb2 d.expiry) ∧
    (Cache.localReplace kc vc b now key v2 (some t2)).2 =
      Cache.Buffer.put (Cache.Buffer.erase b kb) kb vb2 (now + t2) ∧
    Cache.Buffer.lookup (Cache.localReplace kc vc b now key v2 (some t2)).2 kb =
      some (Cache.Data.mk vb2 (now + t2)) ∧
    Cache.redisSetXXGet b now kb vb2 none =
      (some d.value, Cache.Buffer.insert b kb (Cache.Data.mk vb2 d.expiry)) ∧
    Cache.redisSetXXGet b now kb vb2 (some t2) =
      (some d.value,
       Cache.Buffer.insert b kb (Cache.Data.mk vb2 (now + t2))) := by
  have hlivet : d.live now = true := by
    simp [Cache.Data.live]
    omega
  have hrem : Cache.Buffer.remove b now kb = (some d, Cache.Buffer.erase b kb) := by
    simp [Cache.Buffer.remove, hd, hlivet]
  have h1 : (Cache.localReplace kc vc b now key v2 none).2 =
      Cache.Buffer.put (Cache.Buffer.erase b kb) kb vb2 d.expiry := by
    simp only [Cache.localReplace, hk, hv, hrem]
    cases hdec : vc.dec d.value <;> simp
  have h2 : (Cache.localReplace kc vc b now key v2 (some t2)).2 =
      Cache.Buffer.put (Cache.Buffer.erase b kb) kb vb2 (now + t2) := by
    simp only [Cache.localReplace, hk, hv, hrem]
    cases hdec : vc.dec d.value <;> simp
  refine ⟨h1, ?_, h2, ?_, ?_, ?_⟩
  · rw [h1]
    exact Cache.Buffer.lookup_insert (Cache.Buffer.erase b kb) kb
      (Cache.Data.mk vb2 d.expiry)
  · rw [h2]
    exact Cache.Buffer.lookup_insert (Cache.Buffer.erase b kb) kb
      (Cache.Data.mk vb2 (now + t2))
  · simp [Cache.redisSetXXGet, hd, hlivet]
  · simp [Cache.redisSetXXGet, hd, hlivet]

/-- Closed instance of c4_replace_preserves_absolute_expiry at a concrete
buffer holding one live entry with expiry 10. -/
theorem c4_replace_preserves_absolute_expiry_witness :
    (Cache.localReplace natCodec natCodec [([1], Cache.Data.mk [2] 10)] 3 1 7 none).2 =
      Cache.Buffer.put
        (Cache.Buffer.erase [([1], Cache.Data.mk [2] 10)] [1]) [1] [7]
        (Cache.Data.mk [2] 10).expiry ∧
    Cache.Buffer.lookup
      (Cache.localReplace natCodec natCodec [([1], Cache.Data.mk [2] 10)] 3 1 7 none).2 [1] =
      some (Cache.Data.mk [7] (Cache.Data.mk [2] 10).expiry) ∧
    (Cache.localReplace natCodec natCodec [([1], Cache.Data.mk [2] 10)] 3 1 7 (some 5)).2 =
      Cache.Buffer.put
        (Cache.Buffer.erase [([1], Cache.Data.mk [2] 10)] [1]) [1] [7] (3 + 5) ∧
    Cache.Buffer.lookup
      (Cache.localReplace natCodec natCodec [([1], Cache.Data.mk [2] 10)] 3 1 7 (some 5)).2 [1] =
      some (Cache.Data.mk [7] (3 + 5)) ∧
    Cache.redisSetXXGet [([1], Cache.Data.mk [2] 10)] 3 [1] [7] none =
      (some (Cache.Data.mk [2] 10).value,
       Cache.Buffer.insert [([1], Cache.Data.mk [2] 10)] [1]
         (Cache.Data.mk [7] (Cache.Data.mk [2] 10).expiry)) ∧
    Cache.redisSetXXGet [([1], Cache.Data.mk [2] 10)] 3 [1] [7] (some 5) =
      (some (Cache.Data.mk [2] 10).value,
       Cache.Buffer.insert [([1], Cache.Data.mk [2] 10)] [1]
         (Cache.Data.mk [7] (3 + 5))) :=
  c4_replace_preserves_absolute_expiry natCodec natCodec
    [([1], Cache.Data.mk [2] 10)] 3 1 7 [1] [7] (Cache.Data.mk [2] 10) 5
    rfl rfl (by decide) (by decide)

/-- C5: replace writes only if an entry exists: with no entry it returns
none and writes nothing, so a following get still finds nothing; whenever
a successful replace returns none, the key holds no entry afterwards and a
following get finds nothing; whenever it returns some previous value, a
write occurred and the returned value is the decoded previous one (local
backend, plus the spec-modelled remote SET XX GET command). -/
theorem c5_replace_only_if_entry_exists
    {K V : Type} (kc : Codec K) (vc : Codec V) (b : Cache.Buffer)
    (now now2 : Nat) (key : K) (v : V) (kb vb : Bytes) (ttl : Option Nat)
    (hk : kc.enc key = Except.ok kb)
    (hv : vc.enc v = Except.ok vb) :
    (Cache.Buffer.lookup b kb = none →
      Cache.localReplace kc vc b now key v ttl = (Except.ok none, b) ∧
      Cache.localGet kc vc b now2 key = (Except.ok none, b)) ∧
    (∀ b2, Cache.localReplace kc vc b now key v ttl = (Except.ok none, b2) →
      Cache.Buffer.lookup b2 kb = none ∧
      Cache.localGet kc vc b2 now2 key = (Except.ok none, b2)) ∧
    (∀ b2 p,
      Cache.localReplace kc vc b now key v ttl = (Except.ok (some p), b2) →
      ∃ d, Cache.Buffer.lookup b kb = some d ∧ d.live now = true ∧
        vc.dec d.value = Except.ok p ∧
        b2 = Cache.Buffer.put (Cache.Buffer.erase b kb) kb vb
          (match ttl with | some t => now + t | none => d.expiry)) ∧
    (Cache.Buffer.lookup b kb = none →
      Cache.redisSetXXGet b now kb vb ttl = (none, b)) ∧
    (∀ old st2, Cache.redisSetXXGet b now kb vb ttl = (some old, st2) →
      ∃ d, Cache.Buffer.lookup b kb = some d ∧ d.live now = true ∧
        old = d.value ∧
        st2 = Cache.Buffer.insert b kb (Cache.Data.mk vb
          (match ttl with | some t => now + t | none => d.expiry))) := by
  refine ⟨?_, ?_, ?_, ?_, ?_⟩
  · intro hnone
    constructor
    · simp [Cache.localReplace, hk, hv, Cache.Buffer.remove, hnone]
    · simp [Cache.localGet, hk, Cache.Buffer.get, hnone]
  · intro b2 hrep
    cases hl : Cache.Buffer.lookup b kb with
    | none =>
      have hb2 : b2 = b := by
        simp [Cache.localReplace, hk, hv, Cache.Buffer.remove, hl] at hrep
        exact hrep.symm
      subst hb2
      constructor
      · exact hl
      · simp [Cache.localGet, hk, Cache.Buffer.get, hl]
    | some d =>
      cases hlv : d.live now with
      | false =>
        have hb2 : b2 = Cache.Buffer.erase b kb := by
          simp [Cache.localReplace, hk, hv, Cache.Buffer.remove, hl, hlv] at hrep
          exact hrep.symm
        subst hb2
        refine ⟨Cache.Buffer.lookup_erase b kb, ?_⟩
        simp [Cache.localGet, hk, Cache.Buffer.get, Cache.Buffer.lookup_erase]
      | true =>
        exfalso
        simp only [Cache.localReplace, hk, hv, Cache.Buffer.remove, hl, hlv] at hrep
        cases hdec : vc.dec d.value <;> simp [hdec] at hrep
  · intro b2 p hrep
    cases hl : Cache.Buffer.lookup b kb with
    | none =>
      exfalso
      simp [Cache.localReplace, hk, hv, Cache.Buffer.remove, hl] at hrep
    | some d =>
      cases hlv : d.live now with
      | false =>
        exfalso
        simp [Cache.localReplace, hk, hv, Cache.Buffer.remove, hl, hlv] at hrep
      | true =>
        simp only [Cache.localReplace, hk, hv, Cache.Buffer.remove, hl, hlv] at hrep
        cases hdec : vc.dec d.value with
        | error e => simp [hdec] at hrep
        | ok w =>
          simp [hdec] at hrep
          exact ⟨d, rfl, hlv, by rw [hdec, hrep.1], hrep.2.symm⟩
  · intro hnone
    simp [Cache.redisSetXXGet, hnone]
  · intro old st2 hset
    cases hl : Cache.Buffer.lookup b kb with
    | none => simp [Cache.redisSetXXGet, hl] at hset
    | some d =>
      cases hlv : d.live now with
      | false => simp [Cache.redisSetXXGet, hl, hlv] at hset
      | true =>
        simp [Cache.redisSetXXGet, hl, hlv] at hset
        exact ⟨d, rfl, hlv, hset.left.symm, hset.right.symm⟩

/-- Closed instance of c5_replace_only_if_entry_exists at a concrete empty
buffer and key. -/
theorem c5_replace_only_if_entry_exists_witness :
    Cache.localReplace natCodec natCodec [] 3 1 7 none = (Except.ok none, []) ∧
    Cache.localGet natCodec natCodec [] 4 1 = (Except.ok none, []) :=
  (c5_replace_only_if_entry_exists natCodec natCodec [] 3 4 1 7 [1] [7] none
    rfl rfl).1 rfl

/-- C6: a pop that returns some value has removed the entry, so a
subsequent get on the resulting state finds nothing (local backend, plus
the spec-modelled remote GET-AND-DELETE command). -/
theorem c6_pop_removes_entry
    {K V : Type} (kc : Codec K) (vc : Codec V) (b b2 : Cache.Buffer)
    (now now2 : Nat) (key : K) (v : V)
    (st st2 : Cache.Buffer) (kb2 vold : Bytes)
    (h : Cache.localPop kc vc b now key = (Except.ok (some v), b2))
    (h2 : Cache.redisGetDel st now kb2 = (some vold, st2)) :
    Cache.localGet kc vc b2 now2 key = (Except.ok none, b2) ∧
    Cache.redisGet st2 now2 kb2 = none := by
  constructor
  · cases hke : kc.enc key with
    | error e => simp [Cache.localPop, hke] at h
    | ok kb =>
      cases hl : Cache.Buffer.lookup b kb with
      | none => simp [Cache.localPop, hke, Cache.Buffer.remove, hl] at h
      | some d =>
        cases hlv : d.live now with
        | false => simp [Cache.localPop, hke, Cache.Buffer.remove, hl, hlv] at h
        | true =>
          simp only [Cache.localPop, hke, Cache.Buffer.remove, hl, hlv] at h
          cases hdec : vc.dec d.value with
          | error e => simp [hdec] at h
          | ok w =>
            simp [hdec] at h
            have hb2 : b2 = Cache.Buffer.erase b kb := h.2.symm
            subst hb2
            simp [Cache.localGet, hke, Cache.Buffer.get,
              Cache.Buffer.lookup_erase]
  · cases hl : Cache.Buffer.lookup st kb2 with
    | none => simp [Cache.redisGetDel, hl] at h2
    | some d =>
      cases hlv : d.live now with
      | false => simp [Cache.redisGetDel, hl, hlv] at h2
      | true =>
        simp [Cache.redisGetDel, hl, hlv] at h2
        have hst2 : st2 = Cache.Buffer.erase st kb2 := h2.2.symm
        subst hst2
        simp [Cache.redisGet, Cache.Buffer.lookup_erase]

/-- Closed instance of c6_pop_removes_entry at a concrete buffer holding
one live entry. -/
theorem c6_pop_removes_entry_witness :
    Cache.localGet natCodec natCodec
      (Cache.localPop natCodec natCodec [([1], Cache.Data.mk [2] 10)] 3 1).2
      4 1 =
      (Except.ok none,
       (Cache.localPop natCodec natCodec [([1], Cache.Data.mk [2] 10)] 3 1).2) ∧
    Cache.redisGet
      (Cache.redisGetDel [([1], Cache.Data.mk [2] 10)] 3 [1]).2 4 [1] =
      none :=
  c6_pop_removes_entry natCodec natCodec [([1], Cache.Data.mk [2] 10)]
    (Cache.Buffer.erase [([1], Cache.Data.mk [2] 10)] [1]) 3 4 1 2
    [([1], Cache.Data.mk [2] 10)]
    (Cache.Buffer.erase [([1], Cache.Data.mk [2] 10)] [1]) [1] [2]
    (by decide) (by decide)

/-- C2 counterexample: a local pop that fails while decoding the previous
value has already removed the entry, so the stored state after the failed
call differs from the state before it. -/
theorem c2_counterexample :
    Cache.localPop natCodec natCodec [([1], Cache.Data.mk [9, 9] 100)] 0 1 =
      (Except.error (Cache.Error.Encoding "bad"), []) ∧
    ([([1], Cache.Data.mk [9, 9] 100)] : Cache.Buffer) ≠ [] := by decide

/-- C2 amended: a failure during key or value serialisation leaves the
stored state unchanged, but a decode failure of the previous value does
not: a local pop failing there has already removed the entry, and a local
replace failing there has already written the new value (with the usual
expiry rule). -/
theorem c2_failed_operation_effects
    {K V : Type} (kc : Codec K) (vc : Codec V) (b : Cache.Buffer)
    (now : Nat) (key : K) (v : V) (ttl : Nat) (ttlOpt : Option Nat) :
    (∀ es, kc.enc key = Except.error es →
      Cache.localGet kc vc b now key =
        (Except.error (Cache.Error.fromEncode es), b) ∧
      Cache.localPop kc vc b now key =
        (Except.error (Cache.Error.fromEncode es), b) ∧
      Cache.localPut kc vc b now key v ttl =
        (Except.error (Cache.Error.fromEncode es), b) ∧
      Cache.localReplace kc vc b now key v ttlOpt =
        (Except.error (Cache.Error.fromEncode es), b)) ∧
    (∀ kb es, kc.enc key = Except.ok kb → vc.enc v = Except.error es →
      Cache.localPut kc vc b now key v ttl =
        (Except.error (Cache.Error.fromEncode es), b) ∧
      Cache.localReplace kc vc b now key v ttlOpt =
        (Except.error (Cache.Error.fromEncode es), b)) ∧
    (∀ kb d ed, kc.enc key = Except.ok kb →
      Cache.Buffer.lookup b kb = some d → d.live now = true →
      vc.dec d.value = Except.error ed →
      Cache.localPop kc vc b now key =
        (Except.error (Cache.Error.fromDecode ed), Cache.Buffer.erase b kb)) ∧
    (∀ kb vb d ed, kc.enc key = Except.ok kb → vc.enc v = Except.ok vb →
      Cache.Buffer.lookup b kb = some d → d.live now = true →
      vc.dec d.value = Except.error ed →
      Cache.localReplace kc vc b now key v ttlOpt =
        (Except.error (Cache.Error.fromDecode ed),
         Cache.Buffer.put (Cache.Buffer.erase b kb) kb vb
           (match ttlOpt with | some t => now + t | none => d.expiry))) := by
  refine ⟨?_, ?_, ?_, ?_⟩
  · intro es hke
    exact ⟨by simp [Cache.localGet, hke], by simp [Cache.localPop, hke],
      by simp [Cache.localPut, hke], by simp [Cache.localReplace, hke]⟩
  · intro kb es hke hve
    exact ⟨by simp [Cache.localPut, hke, hve],
      by simp [Cache.localReplace, hke, hve]⟩
  · intro kb d ed hke hl hlv hdec
    simp [Cache.localPop, hke, Cache.Buffer.remove, hl, hlv, hdec]
  · intro kb vb d ed hke hve hl hlv hdec
    simp [Cache.localReplace, hke, hve, Cache.Buffer.remove, hl, hlv, hdec]

/-- Closed instances of c2_failed_operation_effects: a failing encoder
leaves the buffer unchanged, while concrete decode failures in pop and
replace leave the entry removed and the new value written respectively. -/
theorem c2_failed_operation_effects_witness :
    Cache.localPop failCodec failCodec [] 0 1 =
      (Except.error (Cache.Error.Encoding "enc"), []) ∧
    Cache.localPop natCodec natCodec [([1], Cache.Data.mk [9, 9] 100)] 0 1 =
      (Except.error (Cache.Error.Encoding "bad"),
       Cache.Buffer.erase [([1], Cache.Data.mk [9, 9] 100)] [1]) ∧
    Cache.localReplace natCodec natCodec
        [([1], Cache.Data.mk [9, 9] 100)] 0 1 7 none =
      (Except.error (Cache.Error.Encoding "bad"),
       Cache.Buffer.put
         (Cache.Buffer.erase [([1], Cache.Data.mk [9, 9] 100)] [1]) [1] [7]
         (Cache.Data.mk [9, 9] 100).expiry) := by
  refine ⟨?_, ?_, ?_⟩
  · exact ((c2_failed_operation_effects failCodec failCodec [] 0 1 7 0
      none).1 "enc" rfl).2.1
  · exact (c2_failed_operation_effects natCodec natCodec
      [([1], Cache.Data.mk [9, 9] 100)] 0 1 7 0 none).2.2.1 [1]
      (Cache.Data.mk [9, 9] 100) "bad" rfl (by decide) (by decide) rfl
  · exact (c2_failed_operation_effects natCodec natCodec
      [([1], Cache.Data.mk [9, 9] 100)] 0 1 7 0 none).2.2.2 [1] [7]
      (Cache.Data.mk [9, 9] 100) "bad" rfl rfl (by decide) (by decide) rfl

/-- C7 counterexample: a connection-pool acquisition failure is mapped to
the connection kind, not the value-access kind, and an error reported by
the remote store (including a network failure during a command) is mapped
to the value-access kind, not the connection kind. -/
theorem c7_counterexample :
    (Cache.Error.fromPool "connection pool timed out").isVA = false ∧
    (Cache.Error.fromRedis "broken pipe").isConn = false := by decide

/-- C7 amended: lock acquisition failure surfaces as a value-access error;
codec failure as an encoding error; connection-pool acquisition failure as
a connection error; an error reported by the remote store while running a
command as a value-access error (in both the cache and channel crates,
where the channel receive failure also maps to a connection error). -/
theorem c7_error_kind_mapping (s : String) :
    Cache.Error.fromPoison s = Cache.Error.ValueAccess s ∧
    Cache.Error.fromDecode s = Cache.Error.Encoding s ∧
    Cache.Error.fromEncode s = Cache.Error.Encoding s ∧
    Cache.Error.fromPool s = Cache.Error.Connection s ∧
    Cache.Error.fromRedis s = Cache.Error.ValueAccess s ∧
    Channel.Error.fromPoison s = Channel.Error.ValueAccess s ∧
    Channel.Error.fromDecode s = Channel.Error.Encoding s ∧
    Channel.Error.fromEncode s = Channel.Error.Encoding s ∧
    Channel.Error.fromPool s = Channel.Error.Connection s ∧
    Channel.Error.fromRedis s = Channel.Error.ValueAccess s ∧
    Channel.Error.fromRecv s = Channel.Error.Connection s :=
  ⟨rfl, rfl, rfl, rfl, rfl, rfl, rfl, rfl, rfl, rfl, rfl⟩

/-- Closed instance of c7_error_kind_mapping at a concrete message. -/
theorem c7_error_kind_mapping_witness :
    Cache.Error.fromPoison "m" = Cache.Error.ValueAccess "m" ∧
    Cache.Error.fromDecode "m" = Cache.Error.Encoding "m" ∧
    Cache.Error.fromEncode "m" = Cache.Error.Encoding "m" ∧
    Cache.Error.fromPool "m" = Cache.Error.Connection "m" ∧
    Cache.Error.fromRedis "m" = Cache.Error.ValueAccess "m" ∧
    Channel.Error.fromPoison "m" = Channel.Error.ValueAccess "m" ∧
    Channel.Error.fromDecode "m" = Channel.Error.Encoding "m" ∧
    Channel.Error.fromEncode "m" = Channel.Error.Encoding "m" ∧
    Channel.Error.fromPool "m" = Channel.Error.Connection "m" ∧
    Channel.Error.fromRedis "m" = Channel.Error.ValueAccess "m" ∧
    Channel.Error.fromRecv "m" = Channel.Error.Connection "m" :=
  c7_error_kind_mapping "m"

/-- C3 counterexample: on the local backend, polling the subscription
stream at a moment when no event is pending yields nothing even though the
transport is still open (closed is false) — the sequence terminates. -/
theorem c3_counterexample :
    Channel.localListenPoll ([] : List Nat) false = none := rfl

/-- C3 amended: on the Redis backend the subscription sequence yields one
item per received payload and ends exactly when the transport stops
delivering payloads, a decode failure surfacing as an error item that does
not terminate it; on the local backend the sequence terminates the first
time it is polled with no event pending (every try_recv failure ends the
stream), and a pending event is yielded as an ok item. -/
theorem c3_listen_stream_termination
    {T : Type} (vc : Codec T) (m : Bytes) (msgs : List Bytes) (e : T)
    (rest : List T) (closed : Bool) :
    Channel.redisListen vc ([] : List Bytes) = ([] : List (Except Channel.Error T)) ∧
    Channel.redisListen vc (m :: msgs) =
      Channel.redisListenItem vc m :: Channel.redisListen vc msgs ∧
    (∀ ed, vc.dec m = Except.error ed →
      Channel.redisListenItem vc m =
        Except.error (Channel.Error.fromDecode ed)) ∧
    Channel.localListenPoll (e :: rest) closed = some (Except.ok e, rest) ∧
    Channel.localListenPoll ([] : List T) closed = none := by
  refine ⟨rfl, rfl, ?_, rfl, ?_⟩
  · intro ed hdec
    simp [Channel.redisListenItem, hdec]
  · cases closed <;> rfl

/-- Closed instance of c3_listen_stream_termination at a concrete codec,
payload list and pending queue. -/
theorem c3_listen_stream_termination_witness :
    Channel.redisListen natCodec ([] : List Bytes) =
      ([] : List (Except Channel.Error Nat)) ∧
    Channel.redisListen natCodec ([9, 9] :: [[1]]) =
      Channel.redisListenItem natCodec [9, 9] ::
        Channel.redisListen natCodec [[1]] ∧
    (∀ ed, natCodec.dec [9, 9] = Except.error ed →
      Channel.redisListenItem natCodec [9, 9] =
        Except.error (Channel.Error.fromDecode ed)) ∧
    Channel.localListenPoll ([5, 6] : List Nat) false =
      some (Except.ok 5, [6]) ∧
    Channel.localListenPoll ([] : List Nat) false = none :=
  c3_listen_stream_termination natCodec [9, 9] [[1]] 5 [6] false

/-- C8 counterexample: on a bus whose single subscription queue is full,
broadcast fails with the Connection constructor carrying the message
"queue is full" — the error taxonomy's transport-failure kind; the error
type has no separate capacity kind. -/
theorem c8_counterexample :
    Channel.broadcast (Channel.BusState.mk 1 [[0]]) 7 =
      (Except.error (Channel.Error.Connection "queue is full"),
       Channel.BusState.mk 1 [[0]]) ∧
    (Channel.Error.Connection "queue is full").isConn = true := by decide

/-- C8 amended: broadcasting on a topic with zero active subscriptions
succeeds (the event is silently dropped); the local broadcast fails,
without blocking and without dropping for only one subscriber, exactly
when some subscription's bounded queue is full, the failure leaves the bus
unchanged, and the error is the connection-kind error carrying the message
"queue is full"; on success the event is appended to every queue. -/
theorem c8_broadcast_capacity_error
    {T : Type} (st : Channel.BusState T) (e : T) :
    (st.queues = [] →
      Channel.broadcast st e =
        (Except.ok (), Channel.BusState.mk st.capacity [])) ∧
    ((∃ q ∈ st.queues, st.capacity ≤ q.length) ↔
      (Channel.broadcast st e).1 =
        Except.error (Channel.Error.Connection "queue is full")) ∧
    ((Channel.broadcast st e).1 =
        Except.error (Channel.Error.Connection "queue is full") →
      (Channel.broadcast st e).2 = st) ∧
    ((Channel.broadcast st e).1 = Except.ok () →
      (Channel.broadcast st e).2 =
        Channel.BusState.mk st.capacity
          (st.queues.map (fun q => q ++ [e]))) := by
  by_cases hfull : st.queues.any (fun q => st.capacity ≤ q.length) = true
  · have hb : Channel.broadcast st e =
        (Except.error (Channel.Error.Connection "queue is full"), st) := by
      simp [Channel.broadcast, Channel.tryBroadcast, hfull]
    refine ⟨?_, ?_, ?_, ?_⟩
    · intro hq
      rw [hq] at hfull
      simp at hfull
    · simp only [hb]
      simp only [List.any_eq_true, decide_eq_true_eq] at hfull
      simp [hfull]
    · intro _
      simp [hb]
    · intro hok
      rw [hb] at hok
      simp at hok
  · have hb : Channel.broadcast st e =
        (Except.ok (), Channel.BusState.mk st.capacity
          (st.queues.map (fun q => q ++ [e]))) := by
      simp only [Channel.broadcast, Channel.tryBroadcast,
        Bool.not_eq_true] at hfull ⊢
      simp [hfull]
    refine ⟨?_, ?_, ?_, ?_⟩
    · intro hq
      rw [hb, hq]
      simp
    · rw [hb]
      have hfalse : st.queues.any (fun q => st.capacity ≤ q.length) = false := by
        simpa using hfull
      simp only [List.any_eq_false, decide_eq_true_eq] at hfalse
      constructor
      · rintro ⟨q, hq, hlen⟩
        exact absurd hlen (hfalse q hq)
      · intro hc
        exact absurd hc (by simp)
    · intro hc
      rw [hb] at hc
      simp at hc
    · intro _
      rw [hb]

/-- Closed instance of c8_broadcast_capacity_error on a bus with no
subscriptions. -/
theorem c8_broadcast_capacity_error_witness :
    ((Channel.BusState.mk 2 ([] : List (List Nat))).queues = [] →
      Channel.broadcast (Channel.BusState.mk 2 ([] : List (List Nat))) 5 =
        (Except.ok (), Channel.BusState.mk 2 [])) ∧
    ((∃ q ∈ (Channel.BusState.mk 2 ([] : List (List Nat))).queues,
        (Channel.BusState.mk 2 ([] : List (List Nat))).capacity ≤ q.length) ↔
      (Channel.broadcast (Channel.BusState.mk 2 ([] : List (List Nat))) 5).1 =
        Except.error (Channel.Error.Connection "queue is full")) ∧
    ((Channel.broadcast (Channel.BusState.mk 2 ([] : List (List Nat))) 5).1 =
        Except.error (Channel.Error.Connection "queue is full") →
      (Channel.broadcast (Channel.BusState.mk 2 ([] : List (List Nat))) 5).2 =
        Channel.BusState.mk 2 []) ∧
    ((Channel.broadcast (Channel.BusState.mk 2 ([] : List (List Nat))) 5).1 =
        Except.ok () →
      (Channel.broadcast (Channel.BusState.mk 2 ([] : List (List Nat))) 5).2 =
        Channel.BusState.mk 2
          (([] : List (List Nat)).map (fun q => q ++ [5]))) :=
  c8_broadcast_capacity_error (Channel.BusState.mk 2 ([] : List (List Nat))) 5

theorem Channel.broadcastMany_ok {T : Type} (es : List T)
    (st : Channel.BusState T)
    (h : ∀ q ∈ st.queues, q.length + es.length ≤ st.capacity) :
    Channel.broadcastMany st es =
      (Except.ok (), Channel.BusState.mk st.capacity
        (st.queues.map (fun q => q ++ es))) := by
  induction es generalizing st with
  | nil =>
    obtain ⟨cap, qs⟩ := st
    simp [Channel.broadcastMany]
  | cons e rest ih =>
    have hnotfull : st.queues.any (fun q => st.capacity ≤ q.length) = false := by
      rw [List.any_eq_false]
      intro q hq
      have hle := h q hq
      simp only [List.length_cons] at hle
      simp only [decide_eq_true_eq]
      omega
    have hb : Channel.broadcast st e =
        (Except.ok (), Channel.BusState.mk st.capacity
          (st.queues.map (fun q => q ++ [e]))) := by
      simp [Channel.broadcast, Channel.tryBroadcast, hnotfull]
    have hrec := ih (Channel.BusState.mk st.capacity
        (st.queues.map (fun q => q ++ [e])))
      (by
        intro q hq
        simp only [List.mem_map] at hq
        obtain ⟨q0, hq0, hqeq⟩ := hq
        have hle := h q0 hq0
        subst hqeq
        simp only [List.length_append, List.length_cons,
          List.length_nil] at hle ⊢
        omega)
    simp only [Channel.broadcastMany, hb, hrec]
    simp [List.map_map, Function.comp]

/-- C9: with two subscriptions created before the events a, b, c are
broadcast, the broadcasts all succeed (given room in every queue), every
pre-existing subscription receives a, b, c appended in broadcast order,
and both new subscriptions each hold exactly the full sequence a, b, c —
fan-out to every subscription, with no event broadcast before their
creation delivered to them. -/
theorem c9_fanout_two_subscribers
    {T : Type} (st0 : Channel.BusState T) (a b c : T)
    (hcap : ∀ q ∈ st0.queues, q.length + 3 ≤ st0.capacity)
    (hcap3 : 3 ≤ st0.capacity) :
    Channel.broadcastMany (Channel.listen (Channel.listen st0)) [a, b, c] =
      (Except.ok (), Channel.BusState.mk st0.capacity
        (st0.queues.map (fun q => q ++ [a, b, c]) ++
          [[a, b, c], [a, b, c]])) := by
  have h : ∀ q ∈ (Channel.listen (Channel.listen st0)).queues,
      q.length + [a, b, c].length ≤
        (Channel.listen (Channel.listen st0)).capacity := by
    intro q hq
    simp only [Channel.listen, List.append_assoc, List.mem_append,
      List.mem_singleton, List.mem_cons, List.not_mem_nil, or_false] at hq
    rcases hq with hq | hq | hq
    · simpa using hcap q hq
    · subst hq
      simpa using hcap3
    · subst hq
      simpa using hcap3
  have hmain := Channel.broadcastMany_ok [a, b, c]
    (Channel.listen (Channel.listen st0)) h
  rw [hmain]
  simp [Channel.listen, List.map_append]

/-- Closed instance of c9_fanout_two_subscribers starting from a fresh bus
of capacity 3 with no subscriptions. -/
theorem c9_fanout_two_subscribers_witness :
    Channel.broadcastMany
      (Channel.listen (Channel.listen
        (Channel.BusState.mk 3 ([] : List (List Nat))))) [1, 2, 3] =
      (Except.ok (), Channel.BusState.mk 3
        (([] : List (List Nat)).map (fun q => q ++ [1, 2, 3]) ++
          [[1, 2, 3], [1, 2, 3]])) :=
  c9_fanout_two_subscribers (Channel.BusState.mk 3 ([] : List (List Nat)))
    1 2 3 (by simp) (by norm_num)

end Weru
